import Mathlib

/-!
Shallow embedding of `src/Content.py` (SimplyHiredCrawler).

Pure logic of the crawler is translated into Lean definitions; the
Playwright page-automation surface is abstracted as explicit inputs
(option lists, card contents, success flags, `Except`-valued probe
results). Machine behaviour that matters to the claims — Python string
operations, truthiness, dict defaults, the signal handler plus the
module-level `try`/`finally`, the pagination `while` loop — is modelled
faithfully from the source.
-/

/-! ### Python string primitives -/

/-- Python `str.lower()` (ASCII-relevant part): lowercase every character. -/
def pyLower (s : String) : String := String.mk (s.toList.map Char.toLower)

/-- The whitespace characters `str.strip()` removes (ASCII part). -/
def isSpaceChar (c : Char) : Bool :=
  c = ' ' || c = '\t' || c = '\n' || c = '\r' || c = '\x0b' || c = '\x0c'

/-- Python `str.strip()`: drop leading and trailing whitespace. -/
def pyStrip (s : String) : String :=
  String.mk (((s.toList.dropWhile isSpaceChar).reverse.dropWhile isSpaceChar).reverse)

/-- Python `str.replace(" ", "")`: remove every space character. -/
def dropSpaces (s : String) : String := String.mk (s.toList.filter (fun c => c ≠ ' '))

/-- Python `str.replace(" ", "_")`: turn every space into an underscore. -/
def spacesToUnderscores (s : String) : String :=
  String.mk (s.toList.map (fun c => if c = ' ' then '_' else c))

/-- Does `needle` occur at the very front of `hay`? (helper for substring). -/
def matchHere : List Char → List Char → Bool
  | [], _ => true
  | _ :: _, [] => false
  | n :: ns, h :: hs => n == h && matchHere ns hs

/-- Does `needle` occur anywhere in `hay`? (helper for substring). -/
def occursIn (needle : List Char) : List Char → Bool
  | [] => matchHere needle []
  | h :: t => matchHere needle (h :: t) || occursIn needle t

/-- Python `needle in hay` on strings: substring containment. -/
def pyIn (needle hay : String) : Bool := occursIn needle.toList hay.toList

/-! ### Filter labels and selections (`FILTER_LABELS`, `selected_filters`) -/

/-- The four filter categories of `FILTER_LABELS` (Content.py lines 11-16). -/
inductive FilterLabel
  | distance
  | jobType
  | minSalary
  | dateAdded
deriving DecidableEq, Repr

/-- Source: `FILTER_LABELS = ["Distance", "Job Type", "Minimum Salary", "Date added"]`. -/
def FILTER_LABELS : List FilterLabel :=
  [.distance, .jobType, .minSalary, .dateAdded]

/-- The `selected_filters` dict: insertion-ordered label/option pairs. -/
abbrev FilterSel := List (FilterLabel × String)

/-- Python `dict.get(k)`: first binding of `k`, if any. -/
def dictGet (sf : FilterSel) (k : FilterLabel) : Option String :=
  (List.find? (fun p => p.1 == k) sf).map (fun p => p.2)

/-- Result of `normalize_filters_for_csv`. -/
structure FilterMeta where
  distance : String
  job_type : String
  date_added : String
deriving DecidableEq, Repr

/-- Source: `normalize_filters_for_csv` (Content.py lines 122-127): dict lookups with
default `""` for the three CSV-relevant labels. -/
def normalize_filters_for_csv (sf : FilterSel) : FilterMeta :=
  { distance := (dictGet sf .distance).getD ""
    job_type := (dictGet sf .jobType).getD ""
    date_added := (dictGet sf .dateAdded).getD "" }

/-! ### Cards and job records (`crawl`, per-card extraction, lines 334-385) -/

/-- The `<a>` title element of a card: its inner text and optional `href`. -/
structure TitleLink where
  innerText : String
  href : Option String
deriving DecidableEq, Repr

/-- One result card as the extraction code sees it: each `query_selector`
result is `none` (element absent) or the element's inner text. -/
structure Card where
  titleLink : Option TitleLink
  companyPrimary : Option String
  companyFallback : Option String
  locationPrimary : Option String
  locationFallback : Option String
  salaryPrimary : Option String
  salaryFallback : Option String
deriving DecidableEq, Repr

/-- CLI configuration (`args.job`, `args.pages`, `args.location`). -/
structure Config where
  jobTitle : String
  maxPages : Nat
  location : Option String
deriving DecidableEq, Repr

/-- One entry of the global `jobs` list. -/
structure Job where
  search : String
  company : String
  title : String
  link : String
  salary : String
  location : String
  distance : String
  job_type : String
  date_added : String
  page : Nat
deriving DecidableEq, Repr

/-- Source: `x = (card.query_selector(primary) or card.query_selector(fallback));
x = x.inner_text().strip() if x else "N/A"` — Python `or` takes the first
non-`None` element. -/
def extractField (primary fallback : Option String) : String :=
  match primary with
  | some s => pyStrip s
  | none =>
    match fallback with
    | some s => pyStrip s
    | none => "N/A"

/-- Source: `link = title_el.get_attribute("href"); link = f"https://www.simplyhired.com{link}"
if link else "N/A"` — `None` and the empty string are both falsy. -/
def resolveLink (href : Option String) : String :=
  match href with
  | none => "N/A"
  | some h => if h = "" then "N/A" else "https://www.simplyhired.com" ++ h

/-- Source: `fingerprint = f"{company}{title}{location}".lower().replace(" ", "")`
(Content.py line 362). -/
def fingerprintOf (company title location : String) : String :=
  dropSpaces (pyLower (company ++ title ++ location))

/-- The job dict built at Content.py lines 368-379 for a card whose title
element is present (fields in source order). -/
def mkJob (cfg : Config) (sf : FilterSel) (pageNum : Nat) (tl : TitleLink) (c : Card) : Job :=
  { search := cfg.jobTitle
    company := extractField c.companyPrimary c.companyFallback
    title := pyStrip tl.innerText
    link := resolveLink tl.href
    salary := extractField c.salaryPrimary c.salaryFallback
    location := extractField c.locationPrimary c.locationFallback
    distance := (normalize_filters_for_csv sf).distance
    job_type := (normalize_filters_for_csv sf).job_type
    date_added := (normalize_filters_for_csv sf).date_added
    page := pageNum }

/-- The fingerprint `processCard` computes for a card with a title element. -/
def cardFp (tl : TitleLink) (c : Card) : String :=
  fingerprintOf (extractField c.companyPrimary c.companyFallback)
    (pyStrip tl.innerText)
    (extractField c.locationPrimary c.locationFallback)

/-- The mutable session state: the global `jobs` list and the `fingerprints`
set of `crawl` (Content.py lines 19, 258). -/
structure CrawlState where
  jobs : List Job
  fingerprints : Finset String

/-- Source: `jobs = []` (line 19) together with `fingerprints = set()` (line 258). -/
def initState : CrawlState := ⟨[], ∅⟩

/-- Body of `for card in cards` (Content.py lines 334-386): skip the card if
its `<a>` element is absent; otherwise extract fields, compute the
fingerprint, skip silently if it was already seen, else append the job and
record the fingerprint. -/
def processCard (cfg : Config) (sf : FilterSel) (pageNum : Nat)
    (st : CrawlState) (c : Card) : CrawlState :=
  match c.titleLink with
  | none => st
  | some tl =>
    let fp := cardFp tl c
    if fp ∈ st.fingerprints then st
    else
      { jobs := st.jobs ++ [mkJob cfg sf pageNum tl c]
        fingerprints := insert fp st.fingerprints }

/-- Processing a sequence of page-tagged cards with the session filters held
fixed (as `crawl` does: `selected_filters` is set before the loop). -/
def runCards (cfg : Config) (sf : FilterSel) (steps : List (Nat × Card))
    (st : CrawlState) : CrawlState :=
  steps.foldl (fun s pc => processCard cfg sf pc.1 s pc.2) st

/-- The fingerprint of a retained job record, recomputed from its fields. -/
def jobFp (j : Job) : String := fingerprintOf j.company j.title j.location

/-! ### Output-path resolution (`get_unique_output_path`, lines 20-31, 56-60) -/

/-- Model of `os.path.splitext` for paths whose final component has a
nonempty stem: split at the last dot; no dot yields an empty extension. -/
def splitext (p : String) : String × String :=
  let cs := p.toList
  if '.' ∈ cs then
    let i := cs.length - 1 - List.indexOf '.' cs.reverse
    (String.mk (cs.take i), String.mk (cs.drop i))
  else (p, "")

/-- Source: `new_path = f"{name}_{counter}{ext}"`. -/
def candidateName (name ext : String) (counter : Nat) : String :=
  name ++ "_" ++ toString counter ++ ext

/-- The `while True` body of `get_unique_output_path`: try
`f"{name}_{counter}{ext}"` for increasing counters until the name is
unused. The Python loop is unbounded; with a finite set of existing paths
a fuel of `existing.length + 1` candidates always suffices. -/
def uniqueLoop (existing : List String) (name ext : String) : Nat → Nat → String
  | counter, 0 => candidateName name ext counter
  | counter, fuel + 1 =>
    if candidateName name ext counter ∈ existing then
      uniqueLoop existing name ext (counter + 1) fuel
    else candidateName name ext counter

/-- Source: `get_unique_output_path` (Content.py lines 20-31); `existing` stands for
the set of paths for which `os.path.exists` is true. -/
def get_unique_output_path (existing : List String) (base_path : String) : String :=
  if base_path ∈ existing then
    let ne := splitext base_path
    uniqueLoop existing ne.1 ne.2 2 (existing.length + 1)
  else base_path

/-- Source: `os.path.join` for an absolute directory and a file name. -/
def joinPath (d f : String) : String := d ++ "/" ++ f

/-- Source: `safe_title = JOB_TITLE.lower().replace(" ", "_")` (line 57). -/
def safeTitle (jobTitle : String) : String := spacesToUnderscores (pyLower jobTitle)

/-- Source: `BASE_OUTPUT = os.path.join(BASE_DIR, f"{safe_title}_jobs.csv")` where
`BASE_DIR = os.path.dirname(os.path.abspath(__file__))` is the directory
containing the script (lines 58-59). -/
def baseOutput (scriptDir jobTitle : String) : String :=
  joinPath scriptDir (safeTitle jobTitle ++ "_jobs.csv")

/-- Source: `OUTPUT_FILE = get_unique_output_path(BASE_OUTPUT)` (line 60). -/
def outputFile (existing : List String) (scriptDir jobTitle : String) : String :=
  get_unique_output_path existing (baseOutput scriptDir jobTitle)

/-- Modelled from the spec: the spec places the output file "in the working
directory", i.e. under the process working directory `cwd` rather than
under the script's own directory. Used only to compare against
`baseOutput`. -/
def specBaseOutput (cwd jobTitle : String) : String :=
  joinPath cwd (safeTitle jobTitle ++ "_jobs.csv")

/-! ### CSV export (`export_csv`, lines 409-445) -/

/-- The header row written by `export_csv` (lines 416-428). -/
def csvHeader : List String :=
  ["Search Keyword", "Search Location", "Company", "Job Title", "Link",
   "Salary", "Location", "distance", "job_type", "date_added", "Page"]

/-- Source: `LOCATION if LOCATION else "Any"`: `None` and `""` are falsy. -/
def locationField (location : Option String) : String :=
  match location with
  | none => "Any"
  | some l => if l = "" then "Any" else l

/-- One data row of `export_csv` (lines 430-443), fields serialized in
source order. -/
def jobRow (cfg : Config) (j : Job) : List String :=
  [cfg.jobTitle, locationField cfg.location, j.company, j.title, j.link,
   j.salary, j.location, j.distance, j.job_type, j.date_added, toString j.page]

/-- Source: `export_csv(jobs)` as the list of rows it writes: the header followed by
one row per job. -/
def export_csv (cfg : Config) (jobs : List Job) : List (List String) :=
  csvHeader :: jobs.map (jobRow cfg)

/-! ### Run exit paths (`handle_exit`, lines 63-69; `try`/`finally`, 449-453) -/

/-- How a run of the module-level `try: crawl() finally: export_csv(jobs)`
block ends: `crawl` returns normally, returns early on a terminal page
state, raises an unhandled error, or is preempted by SIGINT. -/
inductive RunPath
  | normal
  | terminalEarly
  | errored
  | interrupted
deriving DecidableEq, Repr

/-- The sequence of `export_csv` invocations (each with the accumulator it
receives) a run performs. On SIGINT, `handle_exit` runs `if jobs:
export_csv(jobs)` and then `sys.exit(0)`; the `SystemExit` it raises
unwinds through `crawl` and the module-level `finally` still runs
`export_csv(jobs)`. Every other path reaches the `finally` exactly once. -/
def runExports (p : RunPath) (jobs : List Job) : List (List Job) :=
  match p with
  | .interrupted => (if jobs.isEmpty then [] else [jobs]) ++ [jobs]
  | _ => [jobs]

/-! ### Terminal-state detectors (`check_404_page`, `check_no_results`) -/

/-- Source: `check_404_page` (lines 76-86): the probe
`page.locator(...).is_visible(timeout=3000)` either yields a Boolean or
raises; the bare `except: pass` swallows every error and the function
falls through to `return False`. -/
def check_404_page (visProbe : Except String Bool) : Bool :=
  match visProbe with
  | .ok b => b
  | .error _ => false

/-- The phrase test of `check_no_results`:
`"could not find any" in headings.nth(i).inner_text().strip().lower()`. -/
def noResultsMatch (t : String) : Bool :=
  pyIn "could not find any" (pyLower (pyStrip t))

/-- The `for i in range(count)` scan of `check_no_results`: each heading's
`inner_text()` either yields text or raises; a raise aborts the scan with
that error, a matching text returns `True`, exhaustion returns `False`. -/
def scanHeads : List (Except String String) → Except String Bool
  | [] => .ok false
  | .error e :: _ => .error e
  | .ok t :: rest => if noResultsMatch t then .ok true else scanHeads rest

/-- Source: `check_no_results` (lines 89-119): `headsProbe` is the outcome of
listing the level-2 headings (it may itself raise); any error reaches the
`except Exception` handler, which logs a warning and falls through to
`return False`. The second component records whether the warning was
logged. -/
def check_no_results (headsProbe : Except String (List (Except String String))) :
    Bool × Bool :=
  match headsProbe with
  | .error _ => (false, true)
  | .ok texts =>
    match scanHeads texts with
    | .error _ => (false, true)
    | .ok b => (b, false)

/-! ### Filter phase: discovery loop then application loop (lines 286-313) -/

/-- Page-visible events of the filter phase: reading a label's dropdown
options (`get_dropdown_options`), consulting the user
(`ask_filter_choice_dynamic`), applying a selection
(`select_filter_option`), and the network-idle settle wait that follows
an application. -/
inductive FiltEvent
  | discover (l : FilterLabel)
  | consult (l : FilterLabel)
  | apply (l : FilterLabel)
  | settle
deriving DecidableEq, Repr

/-- One iteration of the first `for label in FILTER_LABELS` loop
(lines 289-299): discover options; if none, continue; otherwise consult
the user and record a chosen option in `selected_filters`. -/
def discoverStep (optionsOf : FilterLabel → List String)
    (chooseFn : FilterLabel → List String → Option String)
    (acc : List FiltEvent × FilterSel) (l : FilterLabel) :
    List FiltEvent × FilterSel :=
  let opts := optionsOf l
  if opts = [] then (acc.1 ++ [.discover l], acc.2)
  else
    match chooseFn l opts with
    | none => (acc.1 ++ [.discover l, .consult l], acc.2)
    | some c => (acc.1 ++ [.discover l, .consult l], acc.2 ++ [(l, c)])

/-- The whole first loop: events emitted and the resulting
`selected_filters` dict (insertion order follows `FILTER_LABELS`). -/
def discoveryPhase (optionsOf : FilterLabel → List String)
    (chooseFn : FilterLabel → List String → Option String) :
    List FiltEvent × FilterSel :=
  FILTER_LABELS.foldl (discoverStep optionsOf chooseFn) ([], [])

/-- The second loop, `for lable, option in selected_filters.items()`
(lines 301-313): each selection is applied and then the page settles
(`wait_for_load_state("networkidle")`) before the next item. Terminal
states are taken to stay negative during the phase. -/
def applicationPhase (sel : FilterSel) : List FiltEvent :=
  sel.foldl (fun acc p => acc ++ [.apply p.1, .settle]) []

/-- The event trace of the whole filter phase of `crawl`. -/
def filterPhaseTrace (optionsOf : FilterLabel → List String)
    (chooseFn : FilterLabel → List String → Option String) : List FiltEvent :=
  (discoveryPhase optionsOf chooseFn).1 ++
    applicationPhase (discoveryPhase optionsOf chooseFn).2

/-! ### `select_filter_option` (lines 191-230) -/

/-- Index of the first listed option whose text contains the requested text
case-insensitively: `if option_text.lower() in opt.inner_text().lower()`. -/
def findMatchIdx (optionText : String) : List String → Option Nat
  | [] => none
  | o :: os =>
    if pyIn (pyLower optionText) (pyLower o) then some 0
    else (findMatchIdx optionText os).map (fun i => i + 1)

/-- Outcome of `select_filter_option`: the returned Boolean and which listed
option (by display position) was clicked, if any. -/
structure SelectOutcome where
  success : Bool
  clicked : Option Nat
deriving DecidableEq, Repr

/-- Source: `select_filter_option(page, label_text, option_text)`: `listedOptions`
is the outcome of opening the dropdown and listing its options (any raise
reaches the `except` handler, which presses Escape and returns `False`).
With the options listed, the first case-insensitive substring match in
display order is clicked and `True` returned; with no match the dropdown
is closed via Escape and `False` returned, nothing clicked. -/
def select_filter_option (listedOptions : Except String (List String))
    (optionText : String) : SelectOutcome :=
  match listedOptions with
  | .error _ => ⟨false, none⟩
  | .ok os =>
    match findMatchIdx optionText os with
    | some i => ⟨true, some i⟩
    | none => ⟨false, none⟩

/-! ### Pagination loop (`crawl`, lines 315-403; `go_to_page`, lines 233-252) -/

/-- What the page offers a given iteration of the `while` loop: the two
terminal-state probes, whether `wait_for_selector` finds a result card
within its timeout (it raises otherwise), the cards themselves, and
whether `go_to_page` for the next page succeeds (every failure inside it
is caught and turned into `False`). -/
structure PageEnv where
  is404 : Bool
  noResults : Bool
  cardsAttach : Bool
  cards : List Card
  nextOk : Bool

/-- How the `while current_page <= MAX_PAGES` loop ends. -/
inductive LoopExit
  | boundReached
  | terminal
  | attachTimeout
  | noNextPage
  | fuelOut
deriving DecidableEq, Repr

/-- Result of the loop: the pages whose iteration started, the final
session state, and the exit cause. -/
structure LoopResult where
  visited : List Nat
  state : CrawlState
  exit : LoopExit

/-- The `while current_page <= MAX_PAGES` loop (lines 315-400), with fuel
making the recursion structural. Per iteration: terminal-state checks
(early `return`); `wait_for_selector` for a card (a timeout raises and is
modelled as `attachTimeout`); the per-card extraction fold; then
`next_page = current_page + 1`, `break` if it exceeds the bound,
`go_to_page`, `break` on failure, else `current_page += 1`. -/
def crawlLoop (cfg : Config) (sf : FilterSel) (env : Nat → PageEnv)
    (maxPages : Nat) : Nat → Nat → CrawlState → LoopResult
  | 0, cp, st =>
    if cp > maxPages then ⟨[], st, .boundReached⟩ else ⟨[], st, .fuelOut⟩
  | fuel + 1, cp, st =>
    if cp > maxPages then ⟨[], st, .boundReached⟩
    else
      let e := env cp
      if e.is404 || e.noResults then ⟨[cp], st, .terminal⟩
      else if !e.cardsAttach then ⟨[cp], st, .attachTimeout⟩
      else
        let st' := e.cards.foldl (fun s c => processCard cfg sf cp s c) st
        if cp + 1 > maxPages then ⟨[cp], st', .boundReached⟩
        else if !e.nextOk then ⟨[cp], st', .noNextPage⟩
        else
          let r := crawlLoop cfg sf env maxPages fuel (cp + 1) st'
          ⟨cp :: r.visited, r.state, r.exit⟩

/-- The loop as entered by `crawl`: `current_page = 1`, empty session
state, and fuel `MAX_PAGES + 1` (more than the loop can consume). -/
def crawlPages (cfg : Config) (sf : FilterSel) (env : Nat → PageEnv)
    (maxPages : Nat) : LoopResult :=
  crawlLoop cfg sf env maxPages (maxPages + 1) 1 initState

/-! ### Concrete sample inputs used to evaluate the development -/

/-- A `--job nurse --pages 2` run with no location. -/
def sampleCfg : Config := ⟨"nurse", 2, none⟩

/-- A title element with text and href present. -/
def sampleTL : TitleLink := ⟨"Nurse", some "/job/1"⟩

/-- A card with every primary locator hitting. -/
def sampleCard : Card :=
  ⟨some sampleTL, some "Acme", none, some "NY", none, some "$10", none⟩

/-- The record `crawl` builds from `sampleCard` on page 1 with no filters. -/
def sampleJob : Job := mkJob sampleCfg [] 1 sampleTL sampleCard

/-- A title element whose `href` attribute is absent. -/
def bareTL : TitleLink := ⟨"Nurse", none⟩

/-- A card whose title element exists but whose every other locator misses. -/
def bareCard : Card := ⟨some bareTL, none, none, none, none, none, none⟩

/-- A card with no `<a>` element at all. -/
def noLinkCard : Card := ⟨none, some "Acme", none, none, none, none, none⟩

/-- A page environment with nothing terminal, cards attaching, and every
pagination click succeeding. -/
def envAllOk : Nat → PageEnv := fun _ => ⟨false, false, true, [], true⟩

/-- Like `envAllOk` but the pagination control is never actionable. -/
def envNoNext : Nat → PageEnv := fun _ => ⟨false, false, true, [], false⟩

/-- Every dropdown offers the single option `"Remote"`. -/
def oneOptionEach : FilterLabel → List String := fun _ => ["Remote"]

/-- A decision provider that always picks the first listed option. -/
def chooseFirst : FilterLabel → List String → Option String := fun _ opts => opts.head?

/-- The label read by a discovery event, if any. -/
def discoverLabel : FiltEvent → Option FilterLabel
  | .discover l => some l
  | _ => none

/-- A card distinct from `sampleCard` (different link, extra whitespace)
whose normalized fingerprint nevertheless equals `sampleCard`'s. -/
def dupCard : Card :=
  ⟨some ⟨"Nurse ", some "/j2"⟩, some " Acme", none, some "NY ", none, none, none⟩

/-- The session-state invariant tying the accumulator to the seen set: as
many retained records as seen fingerprints, pairwise-distinct record
fingerprints, each present in the seen set. -/
def stateInv (st : CrawlState) : Prop :=
  st.jobs.length = st.fingerprints.card
  ∧ (st.jobs.map jobFp).Nodup
  ∧ ∀ j ∈ st.jobs, jobFp j ∈ st.fingerprints

/-! ## Helper lemmas -/

lemma findMatchIdx_none_iff (t : String) (os : List String) :
    findMatchIdx t os = none ↔ ∀ o ∈ os, pyIn (pyLower t) (pyLower o) = false := by
  induction os with
  | nil => simp [findMatchIdx]
  | cons o os ih =>
    by_cases h : pyIn (pyLower t) (pyLower o) = true
    · simp [findMatchIdx, h]
    · simp only [Bool.not_eq_true] at h
      simp [findMatchIdx, h, ih]

lemma findMatchIdx_some (t : String) :
    ∀ (os : List String) (i : Nat), findMatchIdx t os = some i →
      ∃ o, os.get? i = some o ∧ pyIn (pyLower t) (pyLower o) = true ∧
        ∀ j, j < i → ∀ o', os.get? j = some o' →
          pyIn (pyLower t) (pyLower o') = false := by
  intro os
  induction os with
  | nil => intro i h; simp [findMatchIdx] at h
  | cons o os ih =>
    intro i h
    by_cases hm : pyIn (pyLower t) (pyLower o) = true
    · simp [findMatchIdx, hm] at h
      subst h
      exact ⟨o, rfl, hm, fun j hj => absurd hj (Nat.not_lt_zero j)⟩
    · simp only [Bool.not_eq_true] at hm
      simp [findMatchIdx, hm] at h
      obtain ⟨i', hi', rfl⟩ := h
      obtain ⟨o', hg, hmo, hpre⟩ := ih i' hi'
      refine ⟨o', by simpa using hg, hmo, ?_⟩
      intro j hj o'' hg'
      cases j with
      | zero =>
        simp at hg'
        subst hg'
        exact hm
      | succ j => exact hpre j (by omega) o'' (by simpa using hg')

lemma scanHeads_append_error (e : String) (post : List (Except String String)) :
    ∀ pre, (∀ t, Except.ok t ∈ pre → noResultsMatch t = false) →
      ∃ e', scanHeads (pre ++ Except.error e :: post) = Except.error e' := by
  intro pre
  induction pre with
  | nil => intro _; exact ⟨e, rfl⟩
  | cons x pre ih =>
    intro h
    cases x with
    | error e' => exact ⟨e', rfl⟩
    | ok t =>
      have ht : noResultsMatch t = false := h t (List.mem_cons_self _ _)
      have hrec := ih (fun t' ht' => h t' (List.mem_cons_of_mem _ ht'))
      simpa [scanHeads, ht] using hrec

/-! ## Claims -/

/-- C7: `select_filter_option`, given a label's listed options and an option
text, performs case-insensitive substring matching of the text against
each listed option in display order, selects the first match and returns
true; if no listed option matches it returns false, clicks nothing and
closes the control — for every possible option text, and likewise on any
automation error while opening the control. -/
theorem C7_select_filter_option (os : List String) (t : String) (e : String) :
    ((select_filter_option (Except.ok os) t).success = true ↔
      ∃ o ∈ os, pyIn (pyLower t) (pyLower o) = true)
    ∧ (select_filter_option (Except.ok os) t).clicked = findMatchIdx t os
    ∧ (∀ i, findMatchIdx t os = some i →
        ∃ o, os.get? i = some o ∧ pyIn (pyLower t) (pyLower o) = true ∧
          ∀ j, j < i → ∀ o', os.get? j = some o' →
            pyIn (pyLower t) (pyLower o') = false)
    ∧ ((∀ o ∈ os, pyIn (pyLower t) (pyLower o) = false) →
        select_filter_option (Except.ok os) t = ⟨false, none⟩)
    ∧ select_filter_option (Except.error e) t = ⟨false, none⟩ := by
  refine ⟨?_, ?_, fun i h => findMatchIdx_some t os i h, ?_, rfl⟩
  · cases h : findMatchIdx t os with
    | none =>
      simp only [select_filter_option, h]
      constructor
      · intro hfalse; cases hfalse
      · intro ⟨o, hmem, hpy⟩
        have := (findMatchIdx_none_iff t os).mp h o hmem
        rw [this] at hpy
        cases hpy
    | some i =>
      simp only [select_filter_option, h]
      constructor
      · intro _
        obtain ⟨o, hg, hpy, _⟩ := findMatchIdx_some t os i h
        exact ⟨o, List.get?_mem hg, hpy⟩
      · intro _; trivial
  · cases h : findMatchIdx t os <;> simp [select_filter_option, h]
  · intro hall
    have hn := (findMatchIdx_none_iff t os).mpr hall
    simp [select_filter_option, hn]

/-- C7 witness: with options `["Full-time", "Remote work"]` the text
`"remote"` matches (it is a case-insensitive substring of the second
option); with options `["xyz"]` the call fails and clicks nothing. -/
theorem C7_select_filter_option_witness :
    ((select_filter_option (Except.ok ["Full-time", "Remote work"]) "remote").success = true ↔
      ∃ o ∈ ["Full-time", "Remote work"], pyIn (pyLower "remote") (pyLower o) = true)
    ∧ select_filter_option (Except.ok ["xyz"]) "remote" = ⟨false, none⟩ :=
  ⟨(C7_select_filter_option ["Full-time", "Remote work"] "remote" "err").1,
   (C7_select_filter_option ["xyz"] "remote" "err").2.2.2.1 (by decide)⟩

/-- C8: the exported CSV begins with the header row exactly
`Search Keyword, Search Location, Company, Job Title, Link, Salary,
Location, distance, job_type, date_added, Page`, contains one data row per
retained job record, and the Search Location column holds the literal
`"Any"` in every data row when no location was supplied. -/
theorem C8_export_csv (cfg : Config) (jobs : List Job) :
    (export_csv cfg jobs).head? = some csvHeader
    ∧ csvHeader = ["Search Keyword", "Search Location", "Company", "Job Title",
        "Link", "Salary", "Location", "distance", "job_type", "date_added", "Page"]
    ∧ (export_csv cfg jobs).length = jobs.length + 1
    ∧ (export_csv cfg jobs).tail = jobs.map (jobRow cfg)
    ∧ (cfg.location = none →
        ∀ row ∈ (export_csv cfg jobs).tail, row.get? 1 = some "Any") := by
  refine ⟨rfl, rfl, by simp [export_csv], rfl, ?_⟩
  intro hloc row hrow
  simp only [export_csv, List.tail_cons, List.mem_map] at hrow
  obtain ⟨j, _, rfl⟩ := hrow
  simp [jobRow, locationField, hloc]

/-- C8 witness: a one-record export for a run with no location has the
header first and `"Any"` in the Search Location column of its data row. -/
theorem C8_export_csv_witness :
    (export_csv sampleCfg [sampleJob]).head? = some csvHeader
    ∧ (∀ row ∈ (export_csv sampleCfg [sampleJob]).tail, row.get? 1 = some "Any") :=
  ⟨(C8_export_csv sampleCfg [sampleJob]).1,
   (C8_export_csv sampleCfg [sampleJob]).2.2.2.2 rfl⟩

/-- C9: both terminal-state detectors are best-effort: every automation
error raised inside `check_404_page` or `check_no_results` is swallowed
(and logged, for the no-results check) and the function returns false;
detection failures never raise past the function boundary. -/
theorem C9_detectors_best_effort (e : String) (pre post : List (Except String String)) :
    check_404_page (Except.error e) = false
    ∧ check_no_results (Except.error e) = (false, true)
    ∧ ((∀ t, Except.ok t ∈ pre → noResultsMatch t = false) →
        check_no_results (Except.ok (pre ++ Except.error e :: post)) = (false, true)) := by
  refine ⟨rfl, rfl, ?_⟩
  intro h
  obtain ⟨e', he'⟩ := scanHeads_append_error e post pre h
  simp [check_no_results, he']

/-- C9 witness: a probe failure and an `inner_text` raise after one
non-matching heading both yield false (with the warning logged). -/
theorem C9_detectors_best_effort_witness :
    check_404_page (Except.error "boom") = false
    ∧ check_no_results
        (Except.ok [Except.ok "Search results", Except.error "detached"]) = (false, true) :=
  ⟨(C9_detectors_best_effort "boom" [] []).1,
   (C9_detectors_best_effort "detached" [Except.ok "Search results"] []).2.2
     (by intro t ht; simp at ht; subst ht; decide)⟩

/-- C4 (amended): the output file name is derived from the lowercased,
space-to-underscore-normalized job title and placed in the directory
containing the script (not the process working directory); collision is
avoided by appending incrementing numeric suffixes starting at 2 — if
both `x.csv` and `x_2.csv` exist the chosen path is `x_3.csv`, and a
non-existing base name is used unchanged. -/
theorem C4_output_path (existing : List String) (base : String) :
    (base ∉ existing → get_unique_output_path existing base = base)
    ∧ (∀ n e, splitext base = (n, e) → base ∈ existing →
        candidateName n e 2 ∈ existing → candidateName n e 3 ∉ existing →
        get_unique_output_path existing base = candidateName n e 3)
    ∧ (∀ sd t, outputFile existing sd t
        = get_unique_output_path existing (joinPath sd (safeTitle t ++ "_jobs.csv"))) := by
  refine ⟨?_, ?_, fun sd t => rfl⟩
  · intro h
    simp [get_unique_output_path, h]
  · intro n e hsp hmem h2 h3
    obtain ⟨K, hK⟩ : ∃ K, existing.length = K + 1 := by
      cases existing with
      | nil => cases hmem
      | cons a l => exact ⟨l.length, rfl⟩
    simp only [get_unique_output_path, if_pos hmem, hsp]
    rw [hK]
    show uniqueLoop existing n e 2 (K + 1 + 1) = candidateName n e 3
    rw [uniqueLoop, if_pos h2]
    rw [uniqueLoop, if_neg h3]

/-- C4 counterexample: the claim places the output file in the working
directory, but the code derives the directory from the script file's own
location; with script directory `/repo/src` and working directory
`/home/user` the two paths differ. -/
theorem C4_workdir_counterexample :
    baseOutput "/repo/src" "nurse" = "/repo/src/nurse_jobs.csv"
    ∧ specBaseOutput "/home/user" "nurse" = "/home/user/nurse_jobs.csv"
    ∧ baseOutput "/repo/src" "nurse" ≠ specBaseOutput "/home/user" "nurse" := by
  exact ⟨by decide, by decide, by decide⟩

/-- C4 witness: with `x.csv` and `x_2.csv` existing, the chosen path is
`x_3.csv`; a fresh base name is used unchanged. -/
theorem C4_output_path_witness :
    get_unique_output_path ["x.csv", "x_2.csv"] "x.csv" = "x_3.csv"
    ∧ get_unique_output_path ["x.csv", "x_2.csv"] "y.csv" = "y.csv" := by
  constructor
  · have h := (C4_output_path ["x.csv", "x_2.csv"] "x.csv").2.1 "x" ".csv"
      (by decide) (by decide) (by decide) (by decide)
    rw [h]
    decide
  · exact (C4_output_path ["x.csv", "x_2.csv"] "y.csv").1 (by decide)

/-- C2 (amended): every field of a retained record has a defined value; the
card-extracted fields resolve to the sentinel "N/A" when both their
primary and fallback locators miss (and the link also when the href is
empty), but the filter-derived fields distance, job_type and date_added
resolve to the empty string — not "N/A" — when their filter is unset. -/
theorem C2_field_defaults (cfg : Config) (sf : FilterSel) (pageNum : Nat)
    (c : Card) (tl : TitleLink) (st : CrawlState) :
    (c.companyPrimary = none → c.companyFallback = none →
      (mkJob cfg sf pageNum tl c).company = "N/A")
    ∧ (c.locationPrimary = none → c.locationFallback = none →
      (mkJob cfg sf pageNum tl c).location = "N/A")
    ∧ (c.salaryPrimary = none → c.salaryFallback = none →
      (mkJob cfg sf pageNum tl c).salary = "N/A")
    ∧ (tl.href = none → (mkJob cfg sf pageNum tl c).link = "N/A")
    ∧ (tl.href = some "" → (mkJob cfg sf pageNum tl c).link = "N/A")
    ∧ (dictGet sf .distance = none → (mkJob cfg sf pageNum tl c).distance = "")
    ∧ (dictGet sf .jobType = none → (mkJob cfg sf pageNum tl c).job_type = "")
    ∧ (dictGet sf .dateAdded = none → (mkJob cfg sf pageNum tl c).date_added = "")
    ∧ (c.titleLink = some tl → cardFp tl c ∉ st.fingerprints →
        (processCard cfg sf pageNum st c).jobs
          = st.jobs ++ [mkJob cfg sf pageNum tl c]) := by
  refine ⟨?_, ?_, ?_, ?_, ?_, ?_, ?_, ?_, ?_⟩
  · intro h1 h2; simp [mkJob, extractField, h1, h2]
  · intro h1 h2; simp [mkJob, extractField, h1, h2]
  · intro h1 h2; simp [mkJob, extractField, h1, h2]
  · intro h1; simp [mkJob, resolveLink, h1]
  · intro h1; simp [mkJob, resolveLink, h1]
  · intro h1; simp [mkJob, normalize_filters_for_csv, h1]
  · intro h1; simp [mkJob, normalize_filters_for_csv, h1]
  · intro h1; simp [mkJob, normalize_filters_for_csv, h1]
  · intro h1 h2; simp [processCard, h1, h2]

/-- C2 counterexample: with no filter selected, the retained record built
from a card whose non-title locators all miss carries the empty string in
its distance field, not "N/A" as the claim requires. -/
theorem C2_filter_sentinel_counterexample :
    (processCard sampleCfg [] 1 initState bareCard).jobs.map Job.distance = [""]
    ∧ ("" : String) ≠ "N/A" := by
  exact ⟨by decide, by decide⟩

/-- C2 witness: on the all-missing card the extracted company and link
resolve to "N/A" while the unset distance filter yields the empty
string. -/
theorem C2_field_defaults_witness :
    (mkJob sampleCfg [] 1 bareTL bareCard).company = "N/A"
    ∧ (mkJob sampleCfg [] 1 bareTL bareCard).link = "N/A"
    ∧ (mkJob sampleCfg [] 1 bareTL bareCard).distance = "" :=
  ⟨(C2_field_defaults sampleCfg [] 1 bareCard bareTL initState).1 rfl rfl,
   (C2_field_defaults sampleCfg [] 1 bareCard bareTL initState).2.2.2.1 rfl,
   (C2_field_defaults sampleCfg [] 1 bareCard bareTL initState).2.2.2.2.2.1 rfl⟩

/-- C1 (amended): on every exit path the export runs at least once with the
accumulator as it stands, and each export writes exactly one data row per
accumulated job; it runs exactly once on normal completion, early
termination and unhandled error, and once on SIGINT with an empty
accumulator — but twice (signal handler, then the `finally` block, same
rows to the same path) on SIGINT with a non-empty accumulator. -/
theorem C1_export_paths (cfg : Config) (p : RunPath) (jobs : List Job) :
    1 ≤ (runExports p jobs).length
    ∧ (∀ inv ∈ runExports p jobs, inv = jobs ∧
        (export_csv cfg inv).length = jobs.length + 1)
    ∧ (p ≠ RunPath.interrupted → runExports p jobs = [jobs])
    ∧ (p = RunPath.interrupted → jobs = [] → runExports p jobs = [jobs])
    ∧ (p = RunPath.interrupted → jobs ≠ [] → runExports p jobs = [jobs, jobs]) := by
  refine ⟨?_, ?_, ?_, ?_, ?_⟩
  · cases p <;> simp [runExports]
  · intro inv hinv
    have hj : inv = jobs := by
      cases p <;> simp [runExports] at hinv <;> first | exact hinv | skip
      rcases hinv with ⟨_, h⟩ | h <;> exact h
    subst hj
    exact ⟨rfl, by simp [export_csv]⟩
  · intro hp
    cases p <;> simp [runExports]
    exact absurd rfl hp
  · intro hp hj; subst hp; simp [runExports, hj]
  · intro hp hj; subst hp
    simp [runExports, List.isEmpty_iff, hj]

/-- C1 counterexample: a SIGINT arriving with one accumulated job makes the
export run twice — once from `handle_exit`, once from the module-level
`finally` that the handler's `sys.exit` still triggers. -/
theorem C1_double_export_counterexample :
    (runExports RunPath.interrupted [sampleJob]).length = 2
    ∧ (runExports RunPath.interrupted [sampleJob]).length ≠ 1 := by
  exact ⟨by decide, by decide⟩

/-- C1 witness: single export on normal completion and on interrupt with an
empty accumulator; double export on interrupt with one job. -/
theorem C1_export_paths_witness :
    runExports RunPath.normal [sampleJob] = [[sampleJob]]
    ∧ runExports RunPath.interrupted [] = [[]]
    ∧ runExports RunPath.interrupted [sampleJob] = [[sampleJob], [sampleJob]] :=
  ⟨(C1_export_paths sampleCfg RunPath.normal [sampleJob]).2.2.1 (by simp),
   (C1_export_paths sampleCfg RunPath.interrupted []).2.2.2.1 rfl rfl,
   (C1_export_paths sampleCfg RunPath.interrupted [sampleJob]).2.2.2.2 rfl (by simp)⟩

lemma applicationPhase_eq_bind (sel : FilterSel) :
    applicationPhase sel
      = sel.flatMap (fun p => [FiltEvent.apply p.1, FiltEvent.settle]) := by
  have haux : ∀ (sel : FilterSel) (acc : List FiltEvent),
      sel.foldl (fun acc p => acc ++ [FiltEvent.apply p.1, FiltEvent.settle]) acc
        = acc ++ sel.flatMap (fun p => [FiltEvent.apply p.1, FiltEvent.settle]) := by
    intro sel
    induction sel with
    | nil => intro acc; simp
    | cons p sel ih => intro acc; simp [ih]
  simpa [applicationPhase] using haux sel []

lemma discovery_foldl (optionsOf : FilterLabel → List String)
    (chooseFn : FilterLabel → List String → Option String) :
    ∀ (ls : List FilterLabel) (accE : List FiltEvent) (accS : FilterSel),
      ∃ es ss,
        ls.foldl (discoverStep optionsOf chooseFn) (accE, accS) = (accE ++ es, accS ++ ss)
        ∧ (∀ e ∈ es, (∃ l, e = FiltEvent.discover l) ∨ (∃ l, e = FiltEvent.consult l))
        ∧ es.filterMap discoverLabel = ls
        ∧ (ss.map Prod.fst).Sublist ls := by
  intro ls
  induction ls with
  | nil =>
    intro accE accS
    exact ⟨[], [], by simp, by simp, by simp, by simp⟩
  | cons l ls ih =>
    intro accE accS
    by_cases hopts : optionsOf l = []
    · obtain ⟨es, ss, heq, hkinds, hlabels, hsub⟩ :=
        ih (accE ++ [FiltEvent.discover l]) accS
      refine ⟨FiltEvent.discover l :: es, ss, ?_, ?_, ?_, ?_⟩
      · rw [List.foldl_cons,
          show discoverStep optionsOf chooseFn (accE, accS) l
            = (accE ++ [FiltEvent.discover l], accS) from by simp [discoverStep, hopts]]
        simpa [List.append_assoc] using heq
      · intro e he
        rcases List.mem_cons.mp he with he | he
        · exact Or.inl ⟨l, he⟩
        · exact hkinds e he
      · simp [List.filterMap_cons, discoverLabel, hlabels]
      · exact hsub.cons l
    · cases hch : chooseFn l (optionsOf l) with
      | none =>
        obtain ⟨es, ss, heq, hkinds, hlabels, hsub⟩ :=
          ih (accE ++ [FiltEvent.discover l, FiltEvent.consult l]) accS
        refine ⟨FiltEvent.discover l :: FiltEvent.consult l :: es, ss, ?_, ?_, ?_, ?_⟩
        · rw [List.foldl_cons,
            show discoverStep optionsOf chooseFn (accE, accS) l
              = (accE ++ [FiltEvent.discover l, FiltEvent.consult l], accS) from by
                simp [discoverStep, hopts, hch]]
          simpa [List.append_assoc] using heq
        · intro e he
          rcases List.mem_cons.mp he with he | he
          · exact Or.inl ⟨l, he⟩
          rcases List.mem_cons.mp he with he | he
          · exact Or.inr ⟨l, he⟩
          · exact hkinds e he
        · simp [List.filterMap_cons, discoverLabel, hlabels]
        · exact hsub.cons l
      | some c =>
        obtain ⟨es, ss, heq, hkinds, hlabels, hsub⟩ :=
          ih (accE ++ [FiltEvent.discover l, FiltEvent.consult l]) (accS ++ [(l, c)])
        refine ⟨FiltEvent.discover l :: FiltEvent.consult l :: es, (l, c) :: ss, ?_, ?_, ?_, ?_⟩
        · rw [List.foldl_cons,
            show discoverStep optionsOf chooseFn (accE, accS) l
              = (accE ++ [FiltEvent.discover l, FiltEvent.consult l], accS ++ [(l, c)]) from by
                simp [discoverStep, hopts, hch]]
          simpa [List.append_assoc] using heq
        · intro e he
          rcases List.mem_cons.mp he with he | he
          · exact Or.inl ⟨l, he⟩
          rcases List.mem_cons.mp he with he | he
          · exact Or.inr ⟨l, he⟩
          · exact hkinds e he
        · simp [List.filterMap_cons, discoverLabel, hlabels]
        · exact hsub.cons₂ l

/-- C6 (amended): the filter phase is strictly sequential but two-pass: all
labels' options are discovered (and choices resolved) first, in the fixed
`FILTER_LABELS` order, and only then are the chosen filters applied, in
that same order, each application followed by a page-settle barrier
before the next application — so later labels' discoveries precede
earlier labels' applications. -/
theorem C6_filter_phase_two_pass (optionsOf : FilterLabel → List String)
    (chooseFn : FilterLabel → List String → Option String) :
    filterPhaseTrace optionsOf chooseFn
      = (discoveryPhase optionsOf chooseFn).1
        ++ ((discoveryPhase optionsOf chooseFn).2).flatMap
            (fun p => [FiltEvent.apply p.1, FiltEvent.settle])
    ∧ (∀ e ∈ (discoveryPhase optionsOf chooseFn).1,
        (∃ l, e = FiltEvent.discover l) ∨ (∃ l, e = FiltEvent.consult l))
    ∧ (discoveryPhase optionsOf chooseFn).1.filterMap discoverLabel = FILTER_LABELS
    ∧ ((discoveryPhase optionsOf chooseFn).2.map Prod.fst).Sublist FILTER_LABELS
    ∧ (∀ e ∈ applicationPhase (discoveryPhase optionsOf chooseFn).2,
        (∃ l, e = FiltEvent.apply l) ∨ e = FiltEvent.settle) := by
  obtain ⟨es, ss, heq, hkinds, hlabels, hsub⟩ :=
    discovery_foldl optionsOf chooseFn FILTER_LABELS [] []
  have h1 : discoveryPhase optionsOf chooseFn = (es, ss) := by
    simpa [discoveryPhase] using heq
  refine ⟨?_, ?_, ?_, ?_, ?_⟩
  · rw [filterPhaseTrace, applicationPhase_eq_bind]
  · rw [h1]; exact hkinds
  · rw [h1]; exact hlabels
  · rw [h1]; exact hsub
  · rw [h1, applicationPhase_eq_bind]
    intro e he
    simp only [List.mem_flatMap] at he
    obtain ⟨p, _, hp⟩ := he
    rcases List.mem_cons.mp hp with hp | hp
    · exact Or.inl ⟨p.1, hp⟩
    · simp at hp
      exact Or.inr hp

/-- C6 counterexample: with every dropdown offering "Remote" and a provider
that picks it, the Job Type discovery (trace index 2) happens before the
Distance application (trace index 8), contradicting the claim that an
earlier label's application completes before a later label's discovery. -/
theorem C6_order_counterexample :
    FiltEvent.apply FilterLabel.distance ∈ filterPhaseTrace oneOptionEach chooseFirst
    ∧ FiltEvent.discover FilterLabel.jobType ∈ filterPhaseTrace oneOptionEach chooseFirst
    ∧ (filterPhaseTrace oneOptionEach chooseFirst).indexOf
        (FiltEvent.discover FilterLabel.jobType)
      < (filterPhaseTrace oneOptionEach chooseFirst).indexOf
        (FiltEvent.apply FilterLabel.distance) := by
  exact ⟨by decide, by decide, by decide⟩

/-- C6 witness: the two-pass structure evaluated on the concrete
environment where every label offers "Remote" and the provider picks it. -/
theorem C6_filter_phase_two_pass_witness :
    filterPhaseTrace oneOptionEach chooseFirst
      = (discoveryPhase oneOptionEach chooseFirst).1
        ++ ((discoveryPhase oneOptionEach chooseFirst).2).flatMap
            (fun p => [FiltEvent.apply p.1, FiltEvent.settle])
    ∧ (discoveryPhase oneOptionEach chooseFirst).1.filterMap discoverLabel = FILTER_LABELS
    ∧ ((∃ l, FiltEvent.discover FilterLabel.distance = FiltEvent.discover l)
        ∨ (∃ l, FiltEvent.discover FilterLabel.distance = FiltEvent.consult l)) :=
  ⟨(C6_filter_phase_two_pass oneOptionEach chooseFirst).1,
   (C6_filter_phase_two_pass oneOptionEach chooseFirst).2.2.1,
   (C6_filter_phase_two_pass oneOptionEach chooseFirst).2.1
     (FiltEvent.discover FilterLabel.distance) (by decide)⟩

lemma jobFp_mkJob (cfg : Config) (sf : FilterSel) (p : Nat) (tl : TitleLink) (c : Card) :
    jobFp (mkJob cfg sf p tl c) = cardFp tl c := rfl

lemma processCard_none (cfg : Config) (sf : FilterSel) (p : Nat) (st : CrawlState)
    (c : Card) (h : c.titleLink = none) : processCard cfg sf p st c = st := by
  simp [processCard, h]

lemma processCard_dup (cfg : Config) (sf : FilterSel) (p : Nat) (st : CrawlState)
    (c : Card) (tl : TitleLink) (h : c.titleLink = some tl)
    (hfp : cardFp tl c ∈ st.fingerprints) : processCard cfg sf p st c = st := by
  simp [processCard, h, hfp]

lemma processCard_new (cfg : Config) (sf : FilterSel) (p : Nat) (st : CrawlState)
    (c : Card) (tl : TitleLink) (h : c.titleLink = some tl)
    (hfp : cardFp tl c ∉ st.fingerprints) :
    processCard cfg sf p st c
      = ⟨st.jobs ++ [mkJob cfg sf p tl c], insert (cardFp tl c) st.fingerprints⟩ := by
  simp [processCard, h, hfp]

lemma processCard_fp_mono (cfg : Config) (sf : FilterSel) (p : Nat) (st : CrawlState)
    (c : Card) : st.fingerprints ⊆ (processCard cfg sf p st c).fingerprints := by
  cases hc : c.titleLink with
  | none => rw [processCard_none cfg sf p st c hc]
  | some tl =>
    by_cases hfp : cardFp tl c ∈ st.fingerprints
    · rw [processCard_dup cfg sf p st c tl hc hfp]
    · rw [processCard_new cfg sf p st c tl hc hfp]
      exact Finset.subset_insert _ _

lemma processCard_inv (cfg : Config) (sf : FilterSel) (p : Nat) (st : CrawlState)
    (c : Card) (h : stateInv st) : stateInv (processCard cfg sf p st c) := by
  cases hc : c.titleLink with
  | none => rw [processCard_none cfg sf p st c hc]; exact h
  | some tl =>
    by_cases hfp : cardFp tl c ∈ st.fingerprints
    · rw [processCard_dup cfg sf p st c tl hc hfp]; exact h
    · rw [processCard_new cfg sf p st c tl hc hfp]
      obtain ⟨hlen, hnd, hmem⟩ := h
      refine ⟨?_, ?_, ?_⟩
      · simp [Finset.card_insert_of_not_mem hfp, hlen]
      · rw [List.map_append]
        rw [List.nodup_append]
        refine ⟨hnd, by simp, ?_⟩
        intro a ha hb
        simp [jobFp_mkJob] at hb
        obtain ⟨j, hj, rfl⟩ := List.mem_map.mp ha
        exact hfp (hb ▸ hmem j hj)
      · intro j hj
        rcases List.mem_append.mp hj with hj | hj
        · exact Finset.mem_insert_of_mem (hmem j hj)
        · simp at hj
          subst hj
          rw [jobFp_mkJob]
          exact Finset.mem_insert_self _ _

lemma foldl_processCard_inv (cfg : Config) (sf : FilterSel) (p : Nat) :
    ∀ (cards : List Card) (st : CrawlState), stateInv st →
      stateInv (cards.foldl (fun s c => processCard cfg sf p s c) st) := by
  intro cards
  induction cards with
  | nil => intro st h; exact h
  | cons c cards ih => intro st h; exact ih _ (processCard_inv cfg sf p st c h)

lemma foldl_processCard_fp_mono (cfg : Config) (sf : FilterSel) (p : Nat) :
    ∀ (cards : List Card) (st : CrawlState),
      st.fingerprints ⊆ (cards.foldl (fun s c => processCard cfg sf p s c) st).fingerprints := by
  intro cards
  induction cards with
  | nil => intro st; exact Finset.Subset.refl _
  | cons c cards ih =>
    intro st
    exact (processCard_fp_mono cfg sf p st c).trans (ih _)

lemma runCards_inv (cfg : Config) (sf : FilterSel) :
    ∀ (steps : List (Nat × Card)) (st : CrawlState), stateInv st →
      stateInv (runCards cfg sf steps st) := by
  intro steps
  induction steps with
  | nil => intro st h; exact h
  | cons pc steps ih =>
    intro st h
    exact ih _ (processCard_inv cfg sf pc.1 st pc.2 h)

lemma runCards_fp_mono (cfg : Config) (sf : FilterSel) :
    ∀ (steps : List (Nat × Card)) (st : CrawlState),
      st.fingerprints ⊆ (runCards cfg sf steps st).fingerprints := by
  intro steps
  induction steps with
  | nil => intro st; exact Finset.Subset.refl _
  | cons pc steps ih =>
    intro st
    exact (processCard_fp_mono cfg sf pc.1 st pc.2).trans (ih _)

lemma stateInv_init : stateInv initState := by
  refine ⟨rfl, by simp [initState], by simp [initState]⟩

lemma crawlLoop_inv (cfg : Config) (sf : FilterSel) (env : Nat → PageEnv)
    (maxPages : Nat) :
    ∀ (fuel cp : Nat) (st : CrawlState), stateInv st →
      stateInv (crawlLoop cfg sf env maxPages fuel cp st).state := by
  intro fuel
  induction fuel with
  | zero =>
    intro cp st h
    by_cases hcp : cp > maxPages <;> simpa [crawlLoop, hcp] using h
  | succ fuel ih =>
    intro cp st h
    by_cases hcp : cp > maxPages
    · simpa [crawlLoop, hcp] using h
    · simp only [crawlLoop, if_neg hcp]
      split
      · exact h
      · split
        · exact h
        · split
          · exact foldl_processCard_inv cfg sf cp _ st h
          · split
            · exact foldl_processCard_inv cfg sf cp _ st h
            · exact ih _ _ (foldl_processCard_inv cfg sf cp _ st h)

/-- C3: for any two extracted cards with equal normalized fingerprints only
the first encountered is retained, irrespective of the page number or
active filters at the second encounter — the retained records' fingerprints
are pairwise distinct both for an arbitrary page-tagged card sequence and
for the full pagination loop, a card whose fingerprint was already seen
leaves the state untouched, and the seen-fingerprint set only grows. -/
theorem C3_dedup (cfg : Config) (sf : FilterSel) (steps : List (Nat × Card))
    (env : Nat → PageEnv) (maxPages : Nat) :
    ((runCards cfg sf steps initState).jobs.map jobFp).Nodup
    ∧ ((crawlPages cfg sf env maxPages).state.jobs.map jobFp).Nodup
    ∧ (∀ st, st.fingerprints ⊆ (runCards cfg sf steps st).fingerprints)
    ∧ (∀ p c tl st, c.titleLink = some tl → cardFp tl c ∈ st.fingerprints →
        processCard cfg sf p st c = st) :=
  ⟨(runCards_inv cfg sf steps initState stateInv_init).2.1,
   (crawlLoop_inv cfg sf env maxPages (maxPages + 1) 1 initState stateInv_init).2.1,
   fun st => runCards_fp_mono cfg sf steps st,
   fun p c tl st h hfp => processCard_dup cfg sf p st c tl h hfp⟩

/-- C3 witness: `dupCard` (page 2) normalizes to the same fingerprint as
`sampleCard` (page 1); processing it leaves the state of the first
encounter unchanged, and the two-card run retains distinct fingerprints. -/
theorem C3_dedup_witness :
    ((runCards sampleCfg [] [(1, sampleCard), (2, dupCard)] initState).jobs.map jobFp).Nodup
    ∧ processCard sampleCfg [] 2 (runCards sampleCfg [] [(1, sampleCard)] initState) dupCard
        = runCards sampleCfg [] [(1, sampleCard)] initState :=
  ⟨(C3_dedup sampleCfg [] [(1, sampleCard), (2, dupCard)] envAllOk 1).1,
   (C3_dedup sampleCfg [] [] envAllOk 1).2.2.2 2 dupCard ⟨"Nurse ", some "/j2"⟩
     (runCards sampleCfg [] [(1, sampleCard)] initState) rfl (by decide)⟩

/-- C10: the number of records in the accumulator always equals the number
of seen fingerprints — a record is appended exactly when its fingerprint
is new, the fingerprint is recorded exactly with the append, and a card
with no title link is skipped before either structure is touched. -/
theorem C10_state_sync (cfg : Config) (sf : FilterSel) (steps : List (Nat × Card))
    (env : Nat → PageEnv) (maxPages : Nat) :
    (runCards cfg sf steps initState).jobs.length
      = (runCards cfg sf steps initState).fingerprints.card
    ∧ (crawlPages cfg sf env maxPages).state.jobs.length
      = (crawlPages cfg sf env maxPages).state.fingerprints.card
    ∧ (∀ p st c, c.titleLink = none → processCard cfg sf p st c = st)
    ∧ (∀ p st c tl, c.titleLink = some tl → cardFp tl c ∉ st.fingerprints →
        processCard cfg sf p st c
          = ⟨st.jobs ++ [mkJob cfg sf p tl c], insert (cardFp tl c) st.fingerprints⟩)
    ∧ (∀ p st c tl, c.titleLink = some tl → cardFp tl c ∈ st.fingerprints →
        processCard cfg sf p st c = st) :=
  ⟨(runCards_inv cfg sf steps initState stateInv_init).1,
   (crawlLoop_inv cfg sf env maxPages (maxPages + 1) 1 initState stateInv_init).1,
   fun p st c h => processCard_none cfg sf p st c h,
   fun p st c tl h hfp => processCard_new cfg sf p st c tl h hfp,
   fun p st c tl h hfp => processCard_dup cfg sf p st c tl h hfp⟩

/-- C10 witness: a run over one real card and one card without a title link
keeps the two structures in sync, and the linkless card changes nothing. -/
theorem C10_state_sync_witness :
    (runCards sampleCfg [] [(1, sampleCard), (1, noLinkCard)] initState).jobs.length
      = (runCards sampleCfg [] [(1, sampleCard), (1, noLinkCard)] initState).fingerprints.card
    ∧ processCard sampleCfg [] 1 initState noLinkCard = initState :=
  ⟨(C10_state_sync sampleCfg [] [(1, sampleCard), (1, noLinkCard)] envAllOk 1).1,
   (C10_state_sync sampleCfg [] [] envAllOk 1).2.2.1 1 initState noLinkCard rfl⟩

lemma chain_succ_range' : ∀ (n s : Nat),
    List.Chain' (fun a b => b = a + 1) (List.range' s n) := by
  intro n
  induction n with
  | zero => intro s; simp
  | succ n ih =>
    intro s
    cases n with
    | zero => simp [List.range'_one]
    | succ m =>
      rw [List.range'_succ, List.range'_succ]
      refine List.chain'_cons.mpr ⟨rfl, ?_⟩
      have h := ih (s + 1)
      rwa [List.range'_succ] at h

lemma crawlLoop_shape (cfg : Config) (sf : FilterSel) (env : Nat → PageEnv)
    (maxPages : Nat) :
    ∀ (fuel cp : Nat) (st : CrawlState), maxPages < cp + fuel →
      ∃ k, k ≤ maxPages + 1 - cp
        ∧ (crawlLoop cfg sf env maxPages fuel cp st).visited = List.range' cp k
        ∧ (crawlLoop cfg sf env maxPages fuel cp st).exit ≠ LoopExit.fuelOut := by
  intro fuel
  induction fuel with
  | zero =>
    intro cp st h
    have hcp : cp > maxPages := by omega
    refine ⟨0, by omega, ?_, ?_⟩ <;> simp [crawlLoop, hcp]
  | succ fuel ih =>
    intro cp st h
    by_cases hcp : cp > maxPages
    · refine ⟨0, by omega, ?_, ?_⟩ <;> simp [crawlLoop, hcp]
    · cases h404 : (env cp).is404 with
      | true =>
        refine ⟨1, by omega, ?_, ?_⟩ <;>
          simp [crawlLoop, hcp, h404, List.range'_one]
      | false =>
        cases hnr : (env cp).noResults with
        | true =>
          refine ⟨1, by omega, ?_, ?_⟩ <;>
            simp [crawlLoop, hcp, h404, hnr, List.range'_one]
        | false =>
          cases hat : (env cp).cardsAttach with
          | false =>
            refine ⟨1, by omega, ?_, ?_⟩ <;>
              simp [crawlLoop, hcp, h404, hnr, hat, List.range'_one]
          | true =>
            by_cases hb : cp + 1 > maxPages
            · refine ⟨1, by omega, ?_, ?_⟩ <;>
                simp [crawlLoop, hcp, h404, hnr, hat, hb, List.range'_one]
            · cases hnx : (env cp).nextOk with
              | false =>
                refine ⟨1, by omega, ?_, ?_⟩ <;>
                  simp [crawlLoop, hcp, h404, hnr, hat, hb, hnx, List.range'_one]
              | true =>
                obtain ⟨k, hk, hv, he⟩ := ih (cp + 1)
                  (((env cp).cards).foldl (fun s c => processCard cfg sf cp s c) st)
                  (by omega)
                refine ⟨k + 1, by omega, ?_, ?_⟩
                · rw [List.range'_succ]
                  simp [crawlLoop, hcp, h404, hnr, hat, hb, hnx, hv]
                · simp [crawlLoop, hcp, h404, hnr, hat, hb, hnx, he]

lemma crawlLoop_allOk (cfg : Config) (sf : FilterSel) (env : Nat → PageEnv)
    (maxPages : Nat)
    (henv : ∀ p, (env p).is404 = false ∧ (env p).noResults = false
      ∧ (env p).cardsAttach = true ∧ (env p).nextOk = true) :
    ∀ (fuel cp : Nat) (st : CrawlState), maxPages < cp + fuel →
      (crawlLoop cfg sf env maxPages fuel cp st).visited
        = List.range' cp (maxPages + 1 - cp)
      ∧ (crawlLoop cfg sf env maxPages fuel cp st).exit = LoopExit.boundReached := by
  intro fuel
  induction fuel with
  | zero =>
    intro cp st h
    have hcp : cp > maxPages := by omega
    have h0 : maxPages + 1 - cp = 0 := by omega
    rw [h0]
    constructor <;> simp [crawlLoop, hcp]
  | succ fuel ih =>
    intro cp st h
    by_cases hcp : cp > maxPages
    · have h0 : maxPages + 1 - cp = 0 := by omega
      rw [h0]
      constructor <;> simp [crawlLoop, hcp]
    · obtain ⟨h404, hnr, hat, hnx⟩ := henv cp
      by_cases hb : cp + 1 > maxPages
      · have h1 : maxPages + 1 - cp = 1 := by omega
        rw [h1]
        constructor <;>
          simp [crawlLoop, hcp, h404, hnr, hat, hb, List.range'_one]
      · obtain ⟨hv, he⟩ := ih (cp + 1)
          (((env cp).cards).foldl (fun s c => processCard cfg sf cp s c) st)
          (by omega)
        have h2 : maxPages + 1 - cp = (maxPages + 1 - (cp + 1)) + 1 := by omega
        rw [h2]
        constructor
        · rw [List.range'_succ]
          simp [crawlLoop, hcp, h404, hnr, hat, hb, hnx, hv]
        · simp [crawlLoop, hcp, h404, hnr, hat, hb, hnx, he]

lemma crawlPages_noNext (cfg : Config) (sf : FilterSel) (env : Nat → PageEnv)
    (maxPages : Nat) (h2 : 2 ≤ maxPages)
    (h404 : (env 1).is404 = false) (hnr : (env 1).noResults = false)
    (hat : (env 1).cardsAttach = true) (hnx : (env 1).nextOk = false) :
    (crawlPages cfg sf env maxPages).visited = [1]
    ∧ (crawlPages cfg sf env maxPages).exit = LoopExit.noNextPage := by
  have hcp : ¬ (1 > maxPages) := by omega
  have hb : ¬ (1 + 1 > maxPages) := by omega
  constructor <;> simp [crawlPages, crawlLoop, hcp, h404, hnr, hat, hb, hnx]

/-- C5: the pagination loop runs at most `maxPages` iterations; the visited
page numbers form an initial segment `1, 2, …, k` with `k ≤ maxPages` —
never revisiting a page, increasing by exactly 1 per successful advance,
never exceeding the bound; the loop always terminates through an explicit
exit, ends normally when `currentPage + 1` would exceed the bound, and
ends without error when the pagination control is not actionable. -/
theorem C5_pagination (cfg : Config) (sf : FilterSel) (env : Nat → PageEnv)
    (maxPages : Nat) :
    (∃ k, k ≤ maxPages ∧ (crawlPages cfg sf env maxPages).visited = List.range' 1 k)
    ∧ (crawlPages cfg sf env maxPages).visited.Nodup
    ∧ List.Chain' (fun a b => b = a + 1) (crawlPages cfg sf env maxPages).visited
    ∧ (∀ p ∈ (crawlPages cfg sf env maxPages).visited, 1 ≤ p ∧ p ≤ maxPages)
    ∧ (crawlPages cfg sf env maxPages).visited.length ≤ maxPages
    ∧ (crawlPages cfg sf env maxPages).exit ≠ LoopExit.fuelOut
    ∧ ((∀ p, (env p).is404 = false ∧ (env p).noResults = false
          ∧ (env p).cardsAttach = true ∧ (env p).nextOk = true) →
        (crawlPages cfg sf env maxPages).visited = List.range' 1 maxPages
        ∧ (crawlPages cfg sf env maxPages).exit = LoopExit.boundReached)
    ∧ (2 ≤ maxPages → (env 1).is404 = false → (env 1).noResults = false →
        (env 1).cardsAttach = true → (env 1).nextOk = false →
        (crawlPages cfg sf env maxPages).visited = [1]
        ∧ (crawlPages cfg sf env maxPages).exit = LoopExit.noNextPage) := by
  obtain ⟨k, hk, hv, he⟩ :=
    crawlLoop_shape cfg sf env maxPages (maxPages + 1) 1 initState (by omega)
  have hv' : (crawlPages cfg sf env maxPages).visited = List.range' 1 k := hv
  have he' : (crawlPages cfg sf env maxPages).exit ≠ LoopExit.fuelOut := he
  refine ⟨⟨k, by omega, hv'⟩, ?_, ?_, ?_, ?_, he', ?_, ?_⟩
  · rw [hv']
    exact List.nodup_range' 1 k
  · rw [hv']
    exact chain_succ_range' k 1
  · intro p hp
    rw [hv'] at hp
    have := List.mem_range'_1.mp hp
    omega
  · rw [hv']
    simp [List.length_range']
    omega
  · intro henv
    have hall := crawlLoop_allOk cfg sf env maxPages henv (maxPages + 1) 1 initState (by omega)
    have hm : maxPages + 1 - 1 = maxPages := by omega
    rw [hm] at hall
    exact hall
  · intro h2 h404 hnr hat hnx
    exact crawlPages_noNext cfg sf env maxPages h2 h404 hnr hat hnx

/-- C5 witness: with two productive pages and working pagination the loop
visits pages 1 and 2 and stops at the bound; with the control never
actionable it visits page 1 only and stops without error. -/
theorem C5_pagination_witness :
    (crawlPages sampleCfg [] envAllOk 2).visited = List.range' 1 2
    ∧ (crawlPages sampleCfg [] envAllOk 2).exit = LoopExit.boundReached
    ∧ (crawlPages sampleCfg [] envNoNext 2).visited = [1]
    ∧ (crawlPages sampleCfg [] envNoNext 2).exit = LoopExit.noNextPage :=
  ⟨((C5_pagination sampleCfg [] envAllOk 2).2.2.2.2.2.2.1
      (fun _ => ⟨rfl, rfl, rfl, rfl⟩)).1,
   ((C5_pagination sampleCfg [] envAllOk 2).2.2.2.2.2.2.1
      (fun _ => ⟨rfl, rfl, rfl, rfl⟩)).2,
   ((C5_pagination sampleCfg [] envNoNext 2).2.2.2.2.2.2.2
      (by omega) rfl rfl rfl rfl).1,
   ((C5_pagination sampleCfg [] envNoNext 2).2.2.2.2.2.2.2
      (by omega) rfl rfl rfl rfl).2⟩
